import Mathlib

/-!
Verification of the whisper-meetings streaming core.

This file gives a shallow embedding, in Lean 4, of the speech-segmentation and
dispatch engine of the repository (`src/whisper_meetings/streaming.py` and
`src/whisper_meetings/server.py`) and proves properties about it.

Modelling conventions:
* raw byte buffers are `List Nat` (one entry per byte);
* the external voice-activity classifier is a per-frame boolean input to
  `push_frame` (the code consumes it as a black box);
* Python exceptions are `Except`, with the error carrying the state at the
  moment the exception is raised (the size check in `push_frame` raises before
  any mutation, so the carried state is the input state);
* Python floats (RMS energy, no-speech probability) are rationals `ℚ`;
* the asynchronous parts of `server.py` are modelled single-threaded: the
  dispatch queue is the list of tasks it holds, and the worker drains a fixed
  list, the "queue size at that instant" being the remaining tasks.
-/

namespace WM

/-! ## Constants (streaming.py lines 17-31) -/

def SAMPLE_RATE : Nat := 16000
def FRAME_MS : Nat := 20
def FRAME_SAMPLES : Nat := 320
def FRAME_BYTES : Nat := FRAME_SAMPLES * 2

def PRE_ROLL_MS : Nat := 300
def SILENCE_HANGOVER_MS : Nat := 600
def MIN_UTTERANCE_MS : Nat := 800
def MAX_UTTERANCE_MS : Nat := 8000
def PARTIAL_INTERVAL_MS : Nat := 1000
def PARTIAL_WINDOW_MS : Nat := 2500

/-- Byte buffers are lists of byte values. -/
abbrev Bytes := List Nat

/-- `SegmentTask` dataclass (streaming.py lines 47-51).  `kind` is the string
`"partial"` or `"final"` exactly as in the source. -/
structure SegmentTask where
  kind : String
  segment_id : Nat
  pcm_bytes : Bytes
deriving DecidableEq

/-! ## VADSegmenter (streaming.py lines 96-213)

The per-instance parameters computed in `__init__` are fixed module-level
values (`PRE_ROLL_MS // FRAME_MS` etc.), so we express them as definitions. -/

def pre_roll_frames : Nat := PRE_ROLL_MS / FRAME_MS
def silence_hangover_frames : Nat := SILENCE_HANGOVER_MS / FRAME_MS
def min_utterance_frames : Nat := MIN_UTTERANCE_MS / FRAME_MS
def max_utterance_frames : Nat := MAX_UTTERANCE_MS / FRAME_MS
def partial_interval_frames : Nat := PARTIAL_INTERVAL_MS / FRAME_MS
def partial_window_frames : Nat := PARTIAL_WINDOW_MS / FRAME_MS

/-- The mutable state of a `VADSegmenter` instance (streaming.py lines
107-112). -/
structure VADSegmenter where
  pre_roll : List Bytes
  speech_frames : List Bytes
  in_speech : Bool
  silence_run : Nat
  last_partial_at : Nat
  segment_id : Nat
deriving DecidableEq

/-- The state of a freshly constructed `VADSegmenter`. -/
def initSegmenter : VADSegmenter :=
  { pre_roll := [], speech_frames := [], in_speech := false,
    silence_run := 0, last_partial_at := 0, segment_id := 0 }

/-- `deque.append` on a `deque(maxlen=maxlen)`: append to the right, evicting
from the left once over capacity. -/
def dequeAppend (maxlen : Nat) (d : List Bytes) (x : Bytes) : List Bytes :=
  let d' := d ++ [x]
  if maxlen < d'.length then d'.drop (d'.length - maxlen) else d'

/-- `VADSegmenter.reset` (streaming.py lines 114-119).  Note that it does not
touch `segment_id`. -/
def reset (s : VADSegmenter) : VADSegmenter :=
  { s with pre_roll := [], speech_frames := [], in_speech := false,
           silence_run := 0, last_partial_at := 0 }

/-- `VADSegmenter._start_utterance` (streaming.py lines 178-182): the new
utterance is seeded with the current pre-roll contents. -/
def start_utterance (s : VADSegmenter) : VADSegmenter :=
  { s with in_speech := true, silence_run := 0, last_partial_at := 0,
           speech_frames := s.pre_roll }

/-- `VADSegmenter._window_pcm_bytes` (streaming.py lines 184-186): the
concatenation of the last `partial_window_frames` frames of the utterance
(`self._speech_frames[-self.partial_window_frames:]`). -/
def window_pcm_bytes (s : VADSegmenter) : Bytes :=
  (s.speech_frames.drop (s.speech_frames.length - partial_window_frames)).flatten

/-- `VADSegmenter._finalize_utterance` (streaming.py lines 188-213).  The
source contains two consecutive short-utterance checks; the first is guarded
by `not force` and the second is not, and both are kept here verbatim. -/
def finalize_utterance (s : VADSegmenter) (force : Bool) :
    Option SegmentTask × VADSegmenter :=
  let utterance_len := s.speech_frames.length
  if utterance_len < min_utterance_frames ∧ force = false then
    (none, { s with in_speech := false, speech_frames := [], silence_run := 0 })
  else if utterance_len < min_utterance_frames then
    (none, { s with in_speech := false, speech_frames := [], silence_run := 0 })
  else
    (some { kind := "final", segment_id := s.segment_id,
            pcm_bytes := s.speech_frames.flatten },
     { s with segment_id := s.segment_id + 1, in_speech := false,
              speech_frames := [], silence_run := 0, last_partial_at := 0 })

/-- `if final_task is not None: tasks.append(final_task)` (streaming.py lines
160-162 and 166-168). -/
def attach_final (tasks : List SegmentTask)
    (r : Option SegmentTask × VADSegmenter) : List SegmentTask × VADSegmenter :=
  match r with
  | (some t, s) => (tasks ++ [t], s)
  | (none, s) => (tasks, s)

/-- The message of the `ValueError` raised on a frame of the wrong size
(streaming.py lines 122-125). -/
def invalidFrameMsg (n : Nat) : String :=
  s!"Invalid frame size: expected {FRAME_BYTES} bytes, got {n}"

/-- Lines 138-141 of streaming.py: a speech frame resets the silence run, a
silence frame increments it. -/
def bump_silence (s : VADSegmenter) (is_speech : Bool) : VADSegmenter :=
  if is_speech then { s with silence_run := 0 }
  else { s with silence_run := s.silence_run + 1 }

@[simp] theorem bump_silence_pre_roll (s : VADSegmenter) (b : Bool) :
    (bump_silence s b).pre_roll = s.pre_roll := by cases b <;> rfl

@[simp] theorem bump_silence_speech_frames (s : VADSegmenter) (b : Bool) :
    (bump_silence s b).speech_frames = s.speech_frames := by cases b <;> rfl

@[simp] theorem bump_silence_in_speech (s : VADSegmenter) (b : Bool) :
    (bump_silence s b).in_speech = s.in_speech := by cases b <;> rfl

@[simp] theorem bump_silence_last (s : VADSegmenter) (b : Bool) :
    (bump_silence s b).last_partial_at = s.last_partial_at := by cases b <;> rfl

@[simp] theorem bump_silence_segment_id (s : VADSegmenter) (b : Bool) :
    (bump_silence s b).segment_id = s.segment_id := by cases b <;> rfl

@[simp] theorem bump_silence_silence_run (s : VADSegmenter) (b : Bool) :
    (bump_silence s b).silence_run =
      if b = true then 0 else s.silence_run + 1 := by cases b <;> rfl

/-- `VADSegmenter.push_frame` (streaming.py lines 121-170).  The external VAD
verdict for the frame is the input `is_speech`.  An error carries the state at
raise time (the size check precedes every mutation). -/
def push_frame (s : VADSegmenter) (frame : Bytes) (is_speech : Bool) :
    Except (String × VADSegmenter) (List SegmentTask × VADSegmenter) :=
  if frame.length ≠ FRAME_BYTES then
    Except.error (invalidFrameMsg frame.length, s)
  else
    let s1 : VADSegmenter :=
      { s with pre_roll := dequeAppend pre_roll_frames s.pre_roll frame }
    if s1.in_speech = false then
      if is_speech then Except.ok ([], start_utterance s1)
      else Except.ok ([], s1)
    else
      let s2 : VADSegmenter :=
        { s1 with speech_frames := s1.speech_frames ++ [frame] }
      let s3 : VADSegmenter := bump_silence s2 is_speech
      let n : Nat := s3.speech_frames.length
      let tp : List SegmentTask × VADSegmenter :=
        if min_utterance_frames ≤ n ∧
            (partial_interval_frames : Int) ≤ (n : Int) - (s3.last_partial_at : Int) then
          ([{ kind := "partial", segment_id := s3.segment_id,
              pcm_bytes := window_pcm_bytes s3 }],
           { s3 with last_partial_at := n })
        else ([], s3)
      if silence_hangover_frames ≤ tp.2.silence_run then
        Except.ok (attach_final tp.1 (finalize_utterance tp.2 false))
      else if max_utterance_frames ≤ n then
        Except.ok (attach_final tp.1 (finalize_utterance tp.2 true))
      else
        Except.ok tp

/-- `VADSegmenter.flush` (streaming.py lines 172-176). -/
def flush (s : VADSegmenter) : List SegmentTask × VADSegmenter :=
  if s.in_speech = false then ([], s)
  else
    match finalize_utterance s true with
    | (some t, s') => ([t], s')
    | (none, s') => ([], s')

/-- Feed a sequence of (frame, VAD verdict) pairs to a segmenter, collecting
the emitted tasks in order.  A frame that raises the size error leaves the
state unchanged and contributes no tasks, as in the server's receive loop
(server.py lines 176-186). -/
def run (s : VADSegmenter) : List (Bytes × Bool) → List SegmentTask × VADSegmenter
  | [] => ([], s)
  | (f, sp) :: rest =>
    match push_frame s f sp with
    | Except.ok (ts, s') =>
      let r := run s' rest
      (ts ++ r.1, r.2)
    | Except.error _ => run s rest

/-- An all-zero frame of the correct size. -/
def zeroFrame : Bytes := List.replicate FRAME_BYTES 0

/-- `k` speech-classified copies of `f` followed by `m` silence-classified
copies. -/
def speechThenSilence (f : Bytes) (k m : Nat) : List (Bytes × Bool) :=
  List.replicate k (f, true) ++ List.replicate m (f, false)

/-! ## Dispatch queue, admission control and worker (server.py)

The queue is modelled as the list of tasks it currently holds.  `server.py`
lines 190-196 apply the two admission rules inside the receive loop before
`queue.put`; the worker (lines 41-50) is modelled as draining a fixed list,
the queue size at dequeue time being the number of remaining tasks. -/

def MAX_PARTIAL_BACKLOG : Nat := 3

/-- One iteration of the admission loop (server.py lines 191-196):
`has_final` is `any(task.kind == "final" for task in tasks)` computed for the
whole batch before the loop. -/
def admit_step (has_final : Bool) (q : List SegmentTask) (t : SegmentTask) :
    List SegmentTask :=
  if has_final = true ∧ t.kind = "partial" then q
  else if t.kind = "partial" ∧ MAX_PARTIAL_BACKLOG ≤ q.length then q
  else q ++ [t]

/-- Admission control for the batch of tasks produced by one `push_frame`
call (server.py lines 190-196). -/
def enqueue_tasks (queue tasks : List SegmentTask) : List SegmentTask :=
  tasks.foldl (admit_step (tasks.any (fun t => t.kind == "final"))) queue

/-- The tasks a batch actually appended to the queue. -/
def admitted (queue tasks : List SegmentTask) : List SegmentTask :=
  (enqueue_tasks queue tasks).drop queue.length

/-- The consumer loop of `transcription_worker` (server.py lines 41-50),
restricted to its dispatch decision: it returns the dequeued tasks on which
transcription is invoked.  A `Partial` task is skipped when the queue is
non-empty at the instant it is dequeued (here: when tasks remain behind it). -/
def transcription_worker : List SegmentTask → List SegmentTask
  | [] => []
  | t :: rest =>
    if t.kind = "partial" ∧ 0 < rest.length then transcription_worker rest
    else t :: transcription_worker rest

/-- A transcript entry appended by the worker for an accepted final task
(server.py lines 76-83). -/
structure TranscriptEntry where
  segment_id : Nat
  timestamp : String
  speaker : String
  text : String
deriving DecidableEq

/-- The externally visible steps the `session.stop` branch of
`handle_connection` performs, in program order. -/
inductive StopAction where
  | enqueueTask (t : SegmentTask)
  | joinQueue
  | persistSession (audio : Bytes) (messages : List TranscriptEntry) (title : String)
  | sendSaved
  | setInactive
deriving DecidableEq

/-- The `session.stop` branch of `handle_connection` (server.py lines
224-244), as the ordered trace of its awaited effects: flush the segmenter and
enqueue each flushed task, wait for the queue to drain (`queue.join`), then —
when a start timestamp exists, i.e. the session was started — persist the
accumulated audio, transcript and title and send the `session.saved` event,
and finally clear the session-active flag. -/
def handle_session_stop (segmenter : VADSegmenter) (session_audio : Bytes)
    (finalized_messages : List TranscriptEntry) (title : String)
    (has_started_at : Bool) : List StopAction × VADSegmenter :=
  let fr := flush segmenter
  (fr.1.map StopAction.enqueueTask ++ [StopAction.joinQueue] ++
    (if has_started_at then
      [StopAction.persistSession session_audio finalized_messages title,
       StopAction.sendSaved]
     else []) ++ [StopAction.setInactive],
   fr.2)

/-! ## Hallucination filter (streaming.py lines 28-41 and 294-331)

Python floats are modelled as rationals.  `_normalize_text` relies on
`str.lower`, `unicodedata.normalize("NFD", ...)` and the `Mn` category; these
are modelled character-by-character for the character repertoire the
repository's phrase list and transcripts use (ASCII plus Spanish accented
letters); every other character is its own NFD form and not a combining
mark. -/

def MIN_RMS_FOR_TRANSCRIPTION : ℚ := 90
def MIN_RMS_FOR_KNOWN_HALLUCINATIONS : ℚ := 230
def NO_SPEECH_SUPPRESS_THRESHOLD : ℚ := mkRat 78 100
def NO_SPEECH_HALLUCINATION_THRESHOLD : ℚ := mkRat 45 100

def KNOWN_LOW_ENERGY_HALLUCINATIONS : List String :=
  ["gracias", "gracias!", "gracias por ver", "suscribete",
   "suscribete al canal", "suscribete a mi canal", "suscribete a nuestro canal"]

def isAsciiWhitespace (c : Char) : Bool :=
  c == ' ' || c == '\t' || c == '\n' || c == '\r' || c == '\x0b' || c == '\x0c'

/-- `str.lower` per character, for ASCII and the Spanish accented capitals. -/
def pyLowerChar (c : Char) : Char :=
  if c == 'Á' then 'á' else if c == 'É' then 'é' else if c == 'Í' then 'í'
  else if c == 'Ó' then 'ó' else if c == 'Ú' then 'ú' else if c == 'Ñ' then 'ñ'
  else if c == 'Ü' then 'ü' else c.toLower

/-- NFD decomposition per character: the lowercase Spanish accented letters
decompose into the base letter followed by a combining mark; everything else
is left alone. -/
def nfdChar (c : Char) : List Char :=
  if c == 'á' then ['a', '́'] else if c == 'é' then ['e', '́']
  else if c == 'í' then ['i', '́'] else if c == 'ó' then ['o', '́']
  else if c == 'ú' then ['u', '́'] else if c == 'ñ' then ['n', '̃']
  else if c == 'ü' then ['u', '̈'] else [c]

/-- Category `Mn` test, for the combining marks produced by `nfdChar`. -/
def isCombiningMark (c : Char) : Bool :=
  c == '́' || c == '̃' || c == '̈'

/-- `str.strip()`: remove whitespace from both ends. -/
def pyStrip (cs : List Char) : List Char :=
  ((cs.dropWhile isAsciiWhitespace).reverse.dropWhile isAsciiWhitespace).reverse

/-- The character class `[a-z0-9\s]` of the normalization regex. -/
def isNormKeep (c : Char) : Bool :=
  (decide ('a' ≤ c) && decide (c ≤ 'z')) ||
  (decide ('0' ≤ c) && decide (c ≤ '9')) || isAsciiWhitespace c

/-- `re.sub(r"[^a-z0-9\s]+", " ", s)`: each maximal run of characters outside
the class becomes a single space.  `inRun` records whether the previous
character was part of such a run. -/
def collapseOther (inRun : Bool) : List Char → List Char
  | [] => []
  | c :: rest =>
    if isNormKeep c then c :: collapseOther false rest
    else if inRun then collapseOther true rest
    else ' ' :: collapseOther true rest

/-- `str.split()`: whitespace-separated words, no empties; `cur` is the
current word accumulated in reverse. -/
def pyWordsAux (cur : List Char) : List Char → List (List Char)
  | [] => if cur.isEmpty then [] else [cur.reverse]
  | c :: rest =>
    if isAsciiWhitespace c then
      if cur.isEmpty then pyWordsAux [] rest
      else cur.reverse :: pyWordsAux [] rest
    else pyWordsAux (c :: cur) rest

/-- `_normalize_text` (streaming.py lines 294-302): lowercase, strip, drop
combining marks of the NFD form, collapse non-alphanumeric runs to single
spaces, re-join the words with single spaces. -/
def normalize_text (text : String) : String :=
  let lowered := pyStrip (text.data.map pyLowerChar)
  let without_accents := (lowered.flatMap nfdChar).filter (fun c => !isCombiningMark c)
  let alnum_spaces := collapseOther false without_accents
  String.mk (List.intercalate [' '] (pyWordsAux [] alnum_spaces))

def KNOWN_LOW_ENERGY_HALLUCINATIONS_NORMALIZED : List String :=
  KNOWN_LOW_ENERGY_HALLUCINATIONS.map normalize_text

/-- `x is not None and x >= threshold`, as used twice in
`_clean_transcript_text`. -/
def probAtLeast (p : Option ℚ) (threshold : ℚ) : Bool :=
  match p with
  | some q => decide (threshold ≤ q)
  | none => false

/-- `_clean_transcript_text` (streaming.py lines 310-331). -/
def clean_transcript_text (text : String) (rms : ℚ) (no_speech_prob : Option ℚ) :
    String :=
  let cleaned := String.mk (pyStrip text.data)
  if cleaned = "" then ""
  else
    let norm := normalize_text cleaned
    if norm = "" then ""
    else if probAtLeast no_speech_prob NO_SPEECH_SUPPRESS_THRESHOLD then ""
    else if norm ∈ KNOWN_LOW_ENERGY_HALLUCINATIONS_NORMALIZED ∧
        (rms < MIN_RMS_FOR_KNOWN_HALLUCINATIONS ∨
         probAtLeast no_speech_prob NO_SPEECH_HALLUCINATION_THRESHOLD = true) then ""
    else cleaned

set_option maxRecDepth 10000

/-- The segmenter state after pushing one speech-classified frame into a fresh
segmenter: in SPEECH with a one-frame utterance buffer. -/
def afterOneSpeech : VADSegmenter :=
  match push_frame initSegmenter zeroFrame true with
  | Except.ok (_, s') => s'
  | Except.error (_, s') => s'

/-- Claim C1: what the code actually does at the failing input.  A segmenter
in SPEECH whose utterance buffer holds one frame (fewer than
`min_utterance_frames`) returns no task from `flush()` and silently discards
the buffer, because `finalize_utterance` re-checks the minimum length without
consulting `force`; the claim (and the spec's description of `flush`) say a
forced finalize ignores the minimum length and yields one Final task. -/
theorem spec2_C1_flush_short_utterance_code_behavior :
    afterOneSpeech.in_speech = true ∧
    afterOneSpeech.speech_frames.length = 1 ∧
    (flush afterOneSpeech).1 = [] ∧
    (flush afterOneSpeech).2.in_speech = false ∧
    (flush afterOneSpeech).2.speech_frames = [] := by decide

/-- Claim C2 counterexample: from a fresh segmenter, a run of 10
speech-classified frames (fewer than `min_utterance_frames = 40`) followed by
`silence_hangover_frames = 30` silence-classified frames emits one Final task
(the trailing hangover silence counts toward the minimum utterance length), so
the run does not produce zero SegmentTasks as claimed. -/
theorem spec2_C2_counterexample :
    10 < min_utterance_frames ∧
    (run initSegmenter (speechThenSilence zeroFrame 10 30)).1.map
      (fun t => (t.kind, t.segment_id)) = [("final", 0)] := by decide

/-- Claim C3 counterexample: after a session produced one final task
(`segment_id = 0`), `reset()` — which is what a second `session.start` on the
same connection performs — does not reset the segment-id counter, so the first
final task of the new session carries `segment_id = 1`, not 0. -/
theorem spec2_C3_counterexample :
    (run (reset (run initSegmenter (speechThenSilence zeroFrame 10 30)).2)
        (speechThenSilence zeroFrame 10 30)).1.map (fun t => t.segment_id)
      = [1] := by decide

/-- Claim C4: `push_frame` raises the frame-size `ValueError` exactly when the
frame's byte length differs from `FRAME_BYTES`, carrying the unchanged input
state (the check precedes every mutation); on a correctly sized frame it
returns normally. -/
theorem spec2_C4_push_frame_size_check (s : VADSegmenter) (frame : Bytes)
    (is_speech : Bool) :
    (frame.length ≠ FRAME_BYTES →
      push_frame s frame is_speech =
        Except.error (invalidFrameMsg frame.length, s)) ∧
    (frame.length = FRAME_BYTES →
      ∃ r, push_frame s frame is_speech = Except.ok r) := by
  constructor
  · intro h
    unfold push_frame
    rw [if_pos h]
  · intro h
    unfold push_frame
    rw [if_neg (not_not_intro h)]
    dsimp only
    repeat' split
    all_goals exact ⟨_, rfl⟩

/-- Witness for C4 at a concrete input: the empty frame (0 bytes) is rejected
with the protocol error and the untouched initial state, and a correct
640-byte frame is accepted. -/
theorem spec2_C4_witness :
    push_frame initSegmenter [] true =
      Except.error (invalidFrameMsg 0, initSegmenter) ∧
    ∃ r, push_frame initSegmenter zeroFrame true = Except.ok r :=
  ⟨(spec2_C4_push_frame_size_check initSegmenter [] true).1 (by decide),
   (spec2_C4_push_frame_size_check initSegmenter zeroFrame true).2 (by decide)⟩

/-- Claim C8: concrete behaviour of the hallucination filter.  With RMS 120
and no no-speech signal, "Suscríbete a mi canal" (a known hallucination below
the RMS floor of 230) is suppressed while "hola equipo" passes through
unchanged; and "gracias" with averaged no-speech probability 0.93 (above the
suppression threshold 0.78) is suppressed for every RMS. -/
theorem spec2_C8_filter_concrete_cases :
    (∀ rms : ℚ, clean_transcript_text "gracias" rms (some (mkRat 93 100)) = "") ∧
    clean_transcript_text "Suscríbete a mi canal" 120 none = "" ∧
    clean_transcript_text "hola equipo" 120 none = "hola equipo" := by
  refine ⟨fun rms => ?_, by decide, by decide⟩
  rfl

/-- Claim C10: whenever the normalization of the (non-empty) trimmed decoded
text is empty — e.g. punctuation-only text — the filter returns empty text
regardless of RMS and no-speech probability, so the final fall-through that
returns the original trimmed text never applies to such inputs. -/
theorem spec2_C10_empty_normalization_suppressed (text : String) (rms : ℚ)
    (p : Option ℚ) (hne : String.mk (pyStrip text.data) ≠ "")
    (hnorm : normalize_text (String.mk (pyStrip text.data)) = "") :
    clean_transcript_text text rms p = "" := by
  unfold clean_transcript_text
  dsimp only
  rw [if_neg hne, if_pos hnorm]

/-- Witness for C10: the punctuation-only text "..." trims to itself
(non-empty), normalizes to the empty string, and is suppressed. -/
theorem spec2_C10_witness : clean_transcript_text "..." 500 none = "" :=
  spec2_C10_empty_normalization_suppressed "..." 500 none (by decide) (by decide)

/-- Claim C9: on `session.stop` with an active session (a start timestamp
exists), the handler performs, in this order: enqueue each task flushed from
the segmenter, wait for the queue to drain, persist the accumulated audio,
transcript and title, send the `session.saved` event, and only then mark the
session inactive; the segmenter continues as the flushed segmenter. -/
theorem spec2_C9_stop_sequence (segmenter : VADSegmenter) (audio : Bytes)
    (messages : List TranscriptEntry) (title : String) :
    handle_session_stop segmenter audio messages title true =
      ((flush segmenter).1.map StopAction.enqueueTask ++
        [StopAction.joinQueue, StopAction.persistSession audio messages title,
         StopAction.sendSaved, StopAction.setInactive],
       (flush segmenter).2) := by
  simp [handle_session_stop]

/-- Claim C6: the worker skips a dequeued Partial task exactly when tasks
remain in the queue at that instant, never skips a Final task, and hence
invokes transcription on precisely the same final tasks that were queued. -/
theorem spec2_C6_worker_dispatch :
    (∀ t rest, t.kind = "partial" → rest ≠ [] →
      transcription_worker (t :: rest) = transcription_worker rest) ∧
    (∀ t rest, t.kind = "final" →
      transcription_worker (t :: rest) = t :: transcription_worker rest) ∧
    (∀ ts, (transcription_worker ts).filter (fun t => t.kind == "final") =
      ts.filter (fun t => t.kind == "final")) := by
  refine ⟨?_, ?_, ?_⟩
  · intro t rest h1 h2
    rw [transcription_worker, if_pos ⟨h1, List.length_pos.mpr h2⟩]
  · intro t rest h
    rw [transcription_worker, if_neg ?_]
    rintro ⟨hp, -⟩
    rw [h] at hp
    exact absurd hp (by decide)
  · intro ts
    induction ts with
    | nil => rfl
    | cons t rest ih =>
      rw [transcription_worker]
      split
      · rename_i hcond
        simp [List.filter_cons, hcond.1, ih]
      · simp [List.filter_cons, ih]

/-- A sample partial-kind task and final-kind task. -/
def taskP : SegmentTask := { kind := "partial", segment_id := 0, pcm_bytes := [] }

def taskF : SegmentTask := { kind := "final", segment_id := 1, pcm_bytes := [] }

/-- Witness for C6 at concrete inputs: a Partial task with a task behind it is
skipped; a Final task is processed even with a task behind it. -/
theorem spec2_C6_witness :
    transcription_worker [taskP, taskF] = transcription_worker [taskF] ∧
    transcription_worker [taskF, taskP] = taskF :: transcription_worker [taskP] :=
  ⟨spec2_C6_worker_dispatch.1 taskP [taskF] (by decide) (by decide),
   spec2_C6_worker_dispatch.2.1 taskF [taskP] (by decide)⟩

/-- The admission step discards a partial task whenever the queue already
holds at least `MAX_PARTIAL_BACKLOG` items. -/
theorem admit_step_partial_full (hf : Bool) (q : List SegmentTask)
    (t : SegmentTask) (ht : t.kind = "partial")
    (hq : MAX_PARTIAL_BACKLOG ≤ q.length) : admit_step hf q t = q := by
  unfold admit_step
  by_cases hhf : hf = true
  · rw [if_pos ⟨hhf, ht⟩]
  · rw [if_neg (fun hc => hhf hc.1), if_pos ⟨ht, hq⟩]

/-- The admission step never discards a final task. -/
theorem admit_step_final (hf : Bool) (q : List SegmentTask) (t : SegmentTask)
    (ht : t.kind = "final") : admit_step hf q t = q ++ [t] := by
  have hne : ¬ t.kind = "partial" := by rw [ht]; decide
  unfold admit_step
  rw [if_neg (fun hc => hne hc.2), if_neg (fun hc => hne hc.1)]

/-- Behaviour of the admission fold from an arbitrary starting queue: the
survivors are appended in batch order, they form a subsequence of the batch,
final tasks always survive, and when the batch has a final task (rule 1) or
the queue is already at the backlog cap (rule 2) only the final tasks
survive. -/
theorem admit_go_spec (hf : Bool) (ts : List SegmentTask) :
    ∀ q : List SegmentTask,
      (∀ t ∈ ts, t.kind = "partial" ∨ t.kind = "final") →
      ∃ new, ts.foldl (admit_step hf) q = q ++ new ∧
        new.Sublist ts ∧
        new.filter (fun t => t.kind == "final") =
          ts.filter (fun t => t.kind == "final") ∧
        (hf = true → new = ts.filter (fun t => t.kind == "final")) ∧
        (MAX_PARTIAL_BACKLOG ≤ q.length →
          new = ts.filter (fun t => t.kind == "final")) := by
  induction ts with
  | nil => intro q _; exact ⟨[], by simp, by simp, by simp, by simp, by simp⟩
  | cons t rest ih =>
    intro q hk
    have hkrest : ∀ u ∈ rest, u.kind = "partial" ∨ u.kind = "final" :=
      fun u hu => hk u (List.mem_cons_of_mem t hu)
    rcases hk t (List.mem_cons_self t rest) with ht | ht
    · by_cases hhf : hf = true
      · have hstep : admit_step hf q t = q := by
          rw [admit_step, if_pos ⟨hhf, ht⟩]
        obtain ⟨new, h1, h2, h3, h4, h5⟩ := ih q hkrest
        refine ⟨new, ?_, h2.cons t, ?_, ?_, ?_⟩
        · rw [List.foldl_cons, hstep, h1]
        · rw [h3, List.filter_cons_of_neg (by simp [ht])]
        · intro h
          rw [h4 h, List.filter_cons_of_neg (by simp [ht])]
        · intro h
          rw [h5 h, List.filter_cons_of_neg (by simp [ht])]
      · by_cases hq : MAX_PARTIAL_BACKLOG ≤ q.length
        · have hstep : admit_step hf q t = q := by
            rw [admit_step, if_neg (fun hc => hhf hc.1), if_pos ⟨ht, hq⟩]
          obtain ⟨new, h1, h2, h3, h4, h5⟩ := ih q hkrest
          refine ⟨new, ?_, h2.cons t, ?_, ?_, ?_⟩
          · rw [List.foldl_cons, hstep, h1]
          · rw [h3, List.filter_cons_of_neg (by simp [ht])]
          · intro h; exact absurd h hhf
          · intro h
            rw [h5 h, List.filter_cons_of_neg (by simp [ht])]
        · have hstep : admit_step hf q t = q ++ [t] := by
            rw [admit_step, if_neg (fun hc => hhf hc.1),
              if_neg (fun hc => hq hc.2)]
          obtain ⟨new, h1, h2, h3, h4, h5⟩ := ih (q ++ [t]) hkrest
          refine ⟨t :: new, ?_, h2.cons₂ t, ?_, ?_, ?_⟩
          · rw [List.foldl_cons, hstep, h1, List.append_assoc,
              List.singleton_append]
          · rw [List.filter_cons_of_neg (by simp [ht]),
              List.filter_cons_of_neg (by simp [ht]), h3]
          · intro h; exact absurd h hhf
          · intro h; exact absurd h hq
    · have hstep : admit_step hf q t = q ++ [t] := by
        have hne : ¬ t.kind = "partial" := by simp [ht]
        rw [admit_step, if_neg (fun hc => hne hc.2),
          if_neg (fun hc => hne hc.1)]
      obtain ⟨new, h1, h2, h3, h4, h5⟩ := ih (q ++ [t]) hkrest
      refine ⟨t :: new, ?_, h2.cons₂ t, ?_, ?_, ?_⟩
      · rw [List.foldl_cons, hstep, h1, List.append_assoc,
          List.singleton_append]
      · rw [List.filter_cons_of_pos (by simp [ht]),
          List.filter_cons_of_pos (by simp [ht]), h3]
      · intro h
        rw [h4 h, List.filter_cons_of_pos (by simp [ht])]
      · intro h
        have hq' : MAX_PARTIAL_BACKLOG ≤ (q ++ [t]).length := by
          rw [List.length_append]; omega
        rw [h5 hq', List.filter_cons_of_pos (by simp [ht])]

/-- Claim C5: admission control for one batch.  The surviving tasks are
appended to the queue in batch order and form a subsequence of the batch; the
final tasks of the batch are exactly the final tasks admitted (finals are
never discarded); if the batch contains a final task, no partial task of the
batch is enqueued; and if the queue already holds at least
`MAX_PARTIAL_BACKLOG` items, every partial task of the batch is discarded. -/
theorem spec2_C5_admission_control (queue tasks : List SegmentTask)
    (hk : ∀ t ∈ tasks, t.kind = "partial" ∨ t.kind = "final") :
    enqueue_tasks queue tasks = queue ++ admitted queue tasks ∧
    (admitted queue tasks).Sublist tasks ∧
    (admitted queue tasks).filter (fun t => t.kind == "final") =
      tasks.filter (fun t => t.kind == "final") ∧
    ((tasks.any fun t => t.kind == "final") = true →
      admitted queue tasks = tasks.filter (fun t => t.kind == "final")) ∧
    (MAX_PARTIAL_BACKLOG ≤ queue.length →
      admitted queue tasks = tasks.filter (fun t => t.kind == "final")) ∧
    (∀ (q : List SegmentTask) (t : SegmentTask), t.kind = "partial" →
      MAX_PARTIAL_BACKLOG ≤ q.length →
      admit_step (tasks.any fun x => x.kind == "final") q t = q) ∧
    (∀ (q : List SegmentTask) (t : SegmentTask), t.kind = "final" →
      admit_step (tasks.any fun x => x.kind == "final") q t = q ++ [t]) := by
  obtain ⟨new, h1, h2, h3, h4, h5⟩ :=
    admit_go_spec (tasks.any fun t => t.kind == "final") tasks queue hk
  have hadm : admitted queue tasks = new := by
    rw [admitted, enqueue_tasks, h1, List.drop_left]
  rw [enqueue_tasks, hadm]
  exact ⟨h1, h2, h3, h4, h5,
    fun q t ht hq => admit_step_partial_full _ q t ht hq,
    fun q t ht => admit_step_final _ q t ht⟩

/-- Witness for C5 at a concrete input: a batch holding one partial and one
final task, admitted to an empty queue, enqueues only the final task. -/
theorem spec2_C5_witness :
    enqueue_tasks [] [taskP, taskF] = [] ++ admitted [] [taskP, taskF] ∧
    (admitted [] [taskP, taskF]).Sublist [taskP, taskF] ∧
    (admitted [] [taskP, taskF]).filter (fun t => t.kind == "final") =
      [taskP, taskF].filter (fun t => t.kind == "final") ∧
    (([taskP, taskF].any fun t => t.kind == "final") = true →
      admitted [] [taskP, taskF] =
        [taskP, taskF].filter (fun t => t.kind == "final")) ∧
    (MAX_PARTIAL_BACKLOG ≤ ([] : List SegmentTask).length →
      admitted [] [taskP, taskF] =
        [taskP, taskF].filter (fun t => t.kind == "final")) ∧
    (∀ (q : List SegmentTask) (t : SegmentTask), t.kind = "partial" →
      MAX_PARTIAL_BACKLOG ≤ q.length →
      admit_step ([taskP, taskF].any fun x => x.kind == "final") q t = q) ∧
    (∀ (q : List SegmentTask) (t : SegmentTask), t.kind = "final" →
      admit_step ([taskP, taskF].any fun x => x.kind == "final") q t =
        q ++ [t]) :=
  spec2_C5_admission_control [] [taskP, taskF] (by decide)

/-! ## Segment-id bookkeeping (claims C3, C7) -/

/-- `finalize_utterance` on a buffer shorter than the minimum discards it
silently — whatever `force` is, because of the unguarded second length
check. -/
theorem finalize_lt (s : VADSegmenter) (force : Bool)
    (h : s.speech_frames.length < min_utterance_frames) :
    finalize_utterance s force =
      (none,
       { s with in_speech := false, speech_frames := [], silence_run := 0 }) := by
  unfold finalize_utterance
  dsimp only
  cases force with
  | false => rw [if_pos ⟨h, rfl⟩]
  | true =>
    rw [if_neg ?_, if_pos h]
    rintro ⟨-, hc⟩
    exact Bool.noConfusion hc

/-- `finalize_utterance` on a buffer of at least the minimum length emits the
final task and advances the segment-id counter. -/
theorem finalize_ge (s : VADSegmenter) (force : Bool)
    (h : min_utterance_frames ≤ s.speech_frames.length) :
    finalize_utterance s force =
      (some { kind := "final", segment_id := s.segment_id,
              pcm_bytes := s.speech_frames.flatten },
       { s with segment_id := s.segment_id + 1, in_speech := false,
                speech_frames := [], silence_run := 0,
                last_partial_at := 0 }) := by
  unfold finalize_utterance
  dsimp only
  rw [if_neg (fun hc => absurd h (Nat.not_le.mpr hc.1)),
    if_neg (Nat.not_lt.mpr h)]

/-- The number of final-kind tasks in a list. -/
def countFinals (ts : List SegmentTask) : Nat :=
  (ts.filter (fun t => t.kind == "final")).length

/-- Claim C3's numbering discipline, following the spec's words: every task
carries the number of final tasks emitted before it (so finals are numbered
`n, n+1, n+2, ...` and each partial shares the id of the final that closes its
utterance). -/
def checkIds : List SegmentTask → Nat → Bool
  | [], _ => true
  | t :: rest, n =>
    if t.kind = "final" then decide (t.segment_id = n) && checkIds rest (n + 1)
    else decide (t.segment_id = n) && checkIds rest n

theorem countFinals_cons_pos (t : SegmentTask) (l : List SegmentTask)
    (h : t.kind = "final") : countFinals (t :: l) = countFinals l + 1 := by
  simp [countFinals, List.filter_cons, h]

theorem countFinals_cons_neg (t : SegmentTask) (l : List SegmentTask)
    (h : ¬ t.kind = "final") : countFinals (t :: l) = countFinals l := by
  simp [countFinals, List.filter_cons, h]

theorem countFinals_append (a b : List SegmentTask) :
    countFinals (a ++ b) = countFinals a + countFinals b := by
  simp [countFinals, List.filter_append]

theorem checkIds_append (a b : List SegmentTask) (n : Nat) :
    checkIds (a ++ b) n = (checkIds a n && checkIds b (n + countFinals a)) := by
  induction a generalizing n with
  | nil => simp [checkIds, countFinals]
  | cons t rest ih =>
    by_cases ht : t.kind = "final"
    · rw [List.cons_append]
      simp only [checkIds, if_pos ht]
      rw [ih, countFinals_cons_pos t rest ht]
      have h3 : n + (countFinals rest + 1) = n + 1 + countFinals rest := by omega
      rw [h3, Bool.and_assoc]
    · rw [List.cons_append]
      simp only [checkIds, if_neg ht]
      rw [ih, countFinals_cons_neg t rest ht, Bool.and_assoc]

/-- A `some` result of `finalize_utterance` is a final task carrying the
pre-increment counter value, and the counter advances by one. -/
theorem finalize_some_inv (s : VADSegmenter) (force : Bool) (t : SegmentTask)
    (s₂ : VADSegmenter) (h : finalize_utterance s force = (some t, s₂)) :
    t.kind = "final" ∧ t.segment_id = s.segment_id ∧
    s₂.segment_id = s.segment_id + 1 := by
  unfold finalize_utterance at h
  dsimp only at h
  split at h
  · injection h with h1; exact Option.noConfusion h1
  · split at h
    · injection h with h1; exact Option.noConfusion h1
    · injection h with h1 h2
      injection h1 with h3
      subst h3; subst h2
      exact ⟨rfl, rfl, rfl⟩

/-- A `none` result of `finalize_utterance` leaves the counter unchanged and
only happens on a buffer shorter than the minimum length. -/
theorem finalize_none_inv (s : VADSegmenter) (force : Bool)
    (s₂ : VADSegmenter) (h : finalize_utterance s force = (none, s₂)) :
    s₂.segment_id = s.segment_id ∧
    s.speech_frames.length < min_utterance_frames := by
  unfold finalize_utterance at h
  dsimp only at h
  split at h
  · rename_i hc
    injection h with h1 h2
    subst h2
    exact ⟨rfl, hc.1⟩
  · split at h
    · rename_i hc
      injection h with h1 h2
      subst h2
      exact ⟨rfl, hc⟩
    · injection h with h1; exact Option.noConfusion h1

/-- Attaching the result of a `finalize_utterance` call to a batch of tasks
that respects the numbering discipline (and holds no final task) preserves the
discipline and the counter bookkeeping. -/
theorem attach_ids (tasks : List SegmentTask) (x : VADSegmenter) (force : Bool)
    (n : Nat) (hts : checkIds tasks n = true) (hnf : countFinals tasks = 0)
    (hid : x.segment_id = n) :
    checkIds (attach_final tasks (finalize_utterance x force)).1 n = true ∧
    (attach_final tasks (finalize_utterance x force)).2.segment_id =
      n + countFinals (attach_final tasks (finalize_utterance x force)).1 := by
  cases hfin : finalize_utterance x force with
  | mk o s₂ =>
    cases o with
    | some t =>
      obtain ⟨hk, hi, hs⟩ := finalize_some_inv x force t s₂ hfin
      rw [attach_final]
      constructor
      · rw [checkIds_append, hts, Bool.true_and, hnf]
        simp [checkIds, hk, hi, hid]
      · rw [countFinals_append, hnf, countFinals_cons_pos t [] (by rw [hk]),
          hs, hid]
        simp [countFinals]
    | none =>
      obtain ⟨hs, -⟩ := finalize_none_inv x force s₂ hfin
      rw [attach_final]
      refine ⟨hts, ?_⟩
      rw [hs, hid, hnf]
      omega

/-- One `push_frame` call emits tasks respecting the numbering discipline of
`checkIds` and advances the counter by the number of finals emitted. -/
theorem push_ids (s : VADSegmenter) (f : Bytes) (sp : Bool)
    (ts : List SegmentTask) (s' : VADSegmenter)
    (h : push_frame s f sp = Except.ok (ts, s')) :
    checkIds ts s.segment_id = true ∧
    s'.segment_id = s.segment_id + countFinals ts := by
  unfold push_frame at h
  by_cases hsz : f.length ≠ FRAME_BYTES
  · rw [if_pos hsz] at h; cases h
  · rw [if_neg hsz] at h
    dsimp only at h
    by_cases hin : s.in_speech = false
    · rw [if_pos hin] at h
      cases sp with
      | true =>
        rw [if_pos rfl] at h
        injection h with h1
        injection h1 with hts hss
        subst hts; subst hss
        exact ⟨rfl, by simp [start_utterance, countFinals]⟩
      | false =>
        rw [if_neg Bool.false_ne_true] at h
        injection h with h1
        injection h1 with hts hss
        subst hts; subst hss
        exact ⟨rfl, by simp [countFinals]⟩
    · rw [if_neg hin] at h
      simp only [bump_silence_pre_roll, bump_silence_speech_frames,
        bump_silence_in_speech, bump_silence_silence_run, bump_silence_last,
        bump_silence_segment_id] at h
      repeat' split at h
      all_goals injection h with h1
      all_goals
        have h2 := congrArg Prod.fst h1
      all_goals
        have h3 := congrArg Prod.snd h1
      all_goals dsimp only at h2 h3
      all_goals subst h2
      all_goals subst h3
      all_goals
        first
        | exact attach_ids _ _ _ _ (by simp [checkIds]) (by simp [countFinals])
            (by simp)
        | exact ⟨by simp [checkIds], by simp [countFinals]⟩

/-- Over any input sequence, the emitted tasks respect the numbering
discipline starting at the initial counter value, and the counter advances by
the number of finals emitted. -/
theorem run_ids (inputs : List (Bytes × Bool)) :
    ∀ s : VADSegmenter,
      checkIds (run s inputs).1 s.segment_id = true ∧
      (run s inputs).2.segment_id =
        s.segment_id + countFinals (run s inputs).1 := by
  induction inputs with
  | nil => intro s; exact ⟨rfl, rfl⟩
  | cons x rest ih =>
    intro s
    obtain ⟨f, sp⟩ := x
    rw [run]
    cases hp : push_frame s f sp with
    | ok r =>
      obtain ⟨ts, s₁⟩ := r
      obtain ⟨h1, h2⟩ := push_ids s f sp ts s₁ hp
      obtain ⟨h3, h4⟩ := ih s₁
      dsimp only
      constructor
      · rw [checkIds_append, h1, Bool.true_and, ← h2]
        exact h3
      · rw [countFinals_append, h4, h2]
        omega
    | error e => exact ih s

/-- Claim C3 (amended): for a fresh segmenter every emitted task carries the
number of final tasks emitted before it — so the final tasks' segment ids are
exactly 0, 1, 2, ... in order, and every partial task carries the id of the
final task that closes its utterance; and `reset()` (what `session.start`
performs on the connection's segmenter) does not reset the segment-id
counter, so numbering continues rather than restarting at 0. -/
theorem spec2_C3_segment_id_numbering :
    (∀ inputs : List (Bytes × Bool),
      checkIds (run initSegmenter inputs).1 0 = true) ∧
    (∀ s : VADSegmenter, (reset s).segment_id = s.segment_id) :=
  ⟨fun inputs => (run_ids inputs initSegmenter).1, fun _ => rfl⟩

/-- A non-final task found after `attach_final` was already in the batch the
finalize result was attached to. -/
theorem mem_attach_final_of_not_final (t : SegmentTask) (T : List SegmentTask)
    (x : VADSegmenter) (b : Bool) (hk : ¬ t.kind = "final")
    (hm : t ∈ (attach_final T (finalize_utterance x b)).1) : t ∈ T := by
  cases hfin : finalize_utterance x b with
  | mk o s₂ =>
    cases o with
    | some u =>
      rw [hfin] at hm
      dsimp only [attach_final] at hm
      rcases List.mem_append.mp hm with h | h
      · exact h
      · obtain ⟨hu, -, -⟩ := finalize_some_inv x b u s₂ hfin
        rw [List.mem_singleton.mp h] at hk
        exact absurd hu hk
    | none =>
      rw [hfin] at hm
      dsimp only [attach_final] at hm
      exact hm

/-- Attaching a finalize result (on a buffer of at least minimum length) to a
one-partial batch: any non-final task of the result is that partial, and if no
final task was produced the state's partial cursor is preserved. -/
theorem c7_attach_leaf (X : VADSegmenter) (p : SegmentTask) (b : Bool)
    (ts : List SegmentTask) (s' : VADSegmenter) (t : SegmentTask)
    (h1 : attach_final [p] (finalize_utterance X b) = (ts, s'))
    (hmem : t ∈ ts) (hkf : ¬ t.kind = "final")
    (hminlen : min_utterance_frames ≤ X.speech_frames.length) :
    t = p ∧ ((∀ u ∈ ts, ¬ u.kind = "final") →
      s'.last_partial_at = X.last_partial_at) := by
  cases hfin : finalize_utterance X b with
  | mk o s₂ =>
    cases o with
    | some u =>
      rw [hfin] at h1
      dsimp only [attach_final] at h1
      have h2 := congrArg Prod.fst h1
      have h3 := congrArg Prod.snd h1
      dsimp only at h2 h3
      subst h2; subst h3
      obtain ⟨hu, -, -⟩ := finalize_some_inv _ _ _ _ hfin
      rcases List.mem_append.mp hmem with ht | ht
      · refine ⟨List.mem_singleton.mp ht, fun hno => ?_⟩
        exact absurd hu (hno u (List.mem_append_right _
          (List.mem_singleton_self u)))
      · rw [List.mem_singleton.mp ht] at hkf
        exact absurd hu hkf
    | none =>
      obtain ⟨-, hlen⟩ := finalize_none_inv _ _ _ hfin
      exact absurd hminlen (Nat.not_le.mpr hlen)

/-- Claim C7: whenever a `push_frame` call emits a Partial task, the utterance
buffer (including the pushed frame) has reached `min_utterance_frames` and has
grown by at least `partial_interval_frames` since the partial cursor; the
task carries the current segment id and, as payload, exactly the flattened
trailing slice of at most the last `partial_window_frames` frames of the
buffer; and unless the same call also finalized the utterance, the partial
cursor is left at the buffer length, so the next partial needs another
`partial_interval_frames` frames. -/
theorem spec2_C7_partial_emission (s : VADSegmenter) (f : Bytes) (sp : Bool)
    (ts : List SegmentTask) (s' : VADSegmenter) (t : SegmentTask)
    (hpush : push_frame s f sp = Except.ok (ts, s'))
    (hmem : t ∈ ts) (hkind : t.kind = "partial") :
    min_utterance_frames ≤ (s.speech_frames ++ [f]).length ∧
    (partial_interval_frames : Int) ≤
      ((s.speech_frames ++ [f]).length : Int) - (s.last_partial_at : Int) ∧
    t.segment_id = s.segment_id ∧
    t.pcm_bytes = ((s.speech_frames ++ [f]).drop
      ((s.speech_frames ++ [f]).length - partial_window_frames)).flatten ∧
    ((s.speech_frames ++ [f]).drop
      ((s.speech_frames ++ [f]).length - partial_window_frames)).length ≤
      partial_window_frames ∧
    ((∀ u ∈ ts, ¬ u.kind = "final") →
      s'.last_partial_at = (s.speech_frames ++ [f]).length) := by
  have hkf : ¬ t.kind = "final" := by rw [hkind]; decide
  unfold push_frame at hpush
  by_cases hsz : f.length ≠ FRAME_BYTES
  · rw [if_pos hsz] at hpush; cases hpush
  · rw [if_neg hsz] at hpush
    dsimp only at hpush
    by_cases hin : s.in_speech = false
    · rw [if_pos hin] at hpush
      cases sp
      · rw [if_neg Bool.false_ne_true] at hpush
        injection hpush with h1
        injection h1 with hts hss
        subst hts
        exact absurd hmem (List.not_mem_nil t)
      · rw [if_pos rfl] at hpush
        injection hpush with h1
        injection h1 with hts hss
        subst hts
        exact absurd hmem (List.not_mem_nil t)
    · rw [if_neg hin] at hpush
      simp only [bump_silence_pre_roll, bump_silence_speech_frames,
        bump_silence_in_speech, bump_silence_silence_run, bump_silence_last,
        bump_silence_segment_id] at hpush
      by_cases hemit : min_utterance_frames ≤ (s.speech_frames ++ [f]).length ∧
          (partial_interval_frames : Int) ≤
            ((s.speech_frames ++ [f]).length : Int) - (s.last_partial_at : Int)
      · rw [if_pos hemit] at hpush
        dsimp only at hpush
        refine ⟨hemit.1, hemit.2, ?_⟩
        repeat' split at hpush
        all_goals injection hpush with h1
        all_goals
          first
          | (obtain ⟨ht, hlpa⟩ := c7_attach_leaf _ _ _ ts s' t h1 hmem hkf
              hemit.1
             subst ht
             refine ⟨rfl, by simp [window_pcm_bytes], ?_, hlpa⟩
             rw [List.length_drop]
             omega)
          | (have h2 := congrArg Prod.fst h1
             have h3 := congrArg Prod.snd h1
             dsimp only at h2 h3
             subst h2; subst h3
             rw [List.mem_singleton.mp hmem]
             refine ⟨rfl, by simp [window_pcm_bytes], ?_, fun _ => rfl⟩
             rw [List.length_drop]
             omega)
      · rw [if_neg hemit] at hpush
        dsimp only at hpush
        simp only [bump_silence_silence_run] at hpush
        repeat' split at hpush
        all_goals injection hpush with h1
        all_goals
          have h2 := congrArg Prod.fst h1
        all_goals dsimp only at h2
        all_goals subst h2
        all_goals
          first
          | exact absurd (mem_attach_final_of_not_final t [] _ _ hkf hmem)
              (List.not_mem_nil t)
          | exact absurd hmem (List.not_mem_nil t)

/-- An in-speech segmenter whose utterance buffer holds 49 frames, about to
receive its 50th frame and emit the first partial of the utterance. -/
def c7State : VADSegmenter :=
  { pre_roll := [], speech_frames := List.replicate 49 zeroFrame,
    in_speech := true, silence_run := 0, last_partial_at := 0, segment_id := 0 }

/-- The partial task `c7State` emits on the next speech frame. -/
def c7Task : SegmentTask :=
  { kind := "partial", segment_id := 0,
    pcm_bytes := (List.replicate 50 zeroFrame).flatten }

/-- The segmenter state after `c7State` received its 50th speech frame. -/
def c7State2 : VADSegmenter :=
  { pre_roll := [zeroFrame], speech_frames := List.replicate 50 zeroFrame,
    in_speech := true, silence_run := 0, last_partial_at := 50, segment_id := 0 }

/-- Witness for C7 at a concrete input: pushing a 50th speech frame into
`c7State` emits one partial task and the stated properties hold. -/
theorem spec2_C7_witness :
    min_utterance_frames ≤ (c7State.speech_frames ++ [zeroFrame]).length ∧
    (partial_interval_frames : Int) ≤
      ((c7State.speech_frames ++ [zeroFrame]).length : Int) -
        (c7State.last_partial_at : Int) ∧
    c7Task.segment_id = c7State.segment_id ∧
    c7Task.pcm_bytes = ((c7State.speech_frames ++ [zeroFrame]).drop
      ((c7State.speech_frames ++ [zeroFrame]).length -
        partial_window_frames)).flatten ∧
    ((c7State.speech_frames ++ [zeroFrame]).drop
      ((c7State.speech_frames ++ [zeroFrame]).length -
        partial_window_frames)).length ≤ partial_window_frames ∧
    ((∀ u ∈ [c7Task], ¬ u.kind = "final") →
      c7State2.last_partial_at = (c7State.speech_frames ++ [zeroFrame]).length) :=
  spec2_C7_partial_emission c7State zeroFrame true [c7Task] c7State2 c7Task
    rfl (List.mem_singleton_self c7Task) rfl

/-! ## Silent discard of short utterances (claim C2) -/

theorem pre_roll_frames_eq : pre_roll_frames = 15 := rfl

theorem silence_hangover_frames_eq : silence_hangover_frames = 30 := rfl

theorem min_utterance_frames_eq : min_utterance_frames = 40 := rfl

theorem max_utterance_frames_eq : max_utterance_frames = 400 := rfl

theorem bump_silence_true (s : VADSegmenter) :
    bump_silence s true = { s with silence_run := 0 } := rfl

theorem bump_silence_false (s : VADSegmenter) :
    bump_silence s false = { s with silence_run := s.silence_run + 1 } := rfl

theorem dequeAppend_nil (f : Bytes) :
    dequeAppend pre_roll_frames [] f = [f] := rfl

/-- A silence frame in the SILENCE state only rotates the pre-roll buffer. -/
theorem push_idle_silence (s : VADSegmenter) (f : Bytes)
    (hf : f.length = FRAME_BYTES) (hin : s.in_speech = false) :
    push_frame s f false = Except.ok
      ([], { s with pre_roll := dequeAppend pre_roll_frames s.pre_roll f }) := by
  unfold push_frame
  rw [if_neg (not_not_intro hf)]
  dsimp only
  rw [if_pos hin, if_neg Bool.false_ne_true]

/-- A speech frame in the SILENCE state opens an utterance seeded with the
pre-roll, emitting nothing. -/
theorem push_idle_speech (s : VADSegmenter) (f : Bytes)
    (hf : f.length = FRAME_BYTES) (hin : s.in_speech = false) :
    push_frame s f true = Except.ok
      ([], start_utterance
        { s with pre_roll := dequeAppend pre_roll_frames s.pre_roll f }) := by
  unfold push_frame
  rw [if_neg (not_not_intro hf)]
  dsimp only
  rw [if_pos hin, if_pos rfl]

/-- An in-speech segmenter state with partial cursor 0, parametrised by the
pre-roll contents, the utterance buffer and the silence run. -/
def utterState (sid : Nat) (d uf : List Bytes) (r : Nat) : VADSegmenter :=
  { pre_roll := d, speech_frames := uf, in_speech := true, silence_run := r,
    last_partial_at := 0, segment_id := sid }

/-- A speech frame pushed into a short in-speech utterance only grows the
buffer. -/
theorem push_grow_speech (sid : Nat) (d uf : List Bytes) (f : Bytes)
    (hf : f.length = FRAME_BYTES)
    (hlen : uf.length + 1 < min_utterance_frames) :
    push_frame (utterState sid d uf 0) f true = Except.ok
      ([], utterState sid (dequeAppend pre_roll_frames d f) (uf ++ [f]) 0) := by
  unfold push_frame
  rw [if_neg (not_not_intro hf)]
  dsimp only [utterState]
  rw [if_neg (by decide : ¬ (true = false))]
  rw [bump_silence_true]
  dsimp only
  split
  · rename_i hc
    exfalso
    have h1 := hc.1
    simp only [List.length_append, List.length_singleton] at h1
    omega
  · dsimp only
    split
    · rename_i hc
      exfalso
      rw [silence_hangover_frames_eq] at hc
      omega
    · split
      · rename_i hc
        exfalso
        simp only [List.length_append, List.length_singleton] at hc
        rw [max_utterance_frames_eq] at hc
        rw [min_utterance_frames_eq] at hlen
        omega
      · rfl

/-- A silence frame pushed into a short in-speech utterance, before the
hangover threshold, grows the buffer and the silence run. -/
theorem push_grow_silence (sid : Nat) (d uf : List Bytes) (r : Nat) (f : Bytes)
    (hf : f.length = FRAME_BYTES)
    (hlen : uf.length + 1 < min_utterance_frames)
    (hr : r + 1 < silence_hangover_frames) :
    push_frame (utterState sid d uf r) f false = Except.ok
      ([], utterState sid (dequeAppend pre_roll_frames d f) (uf ++ [f])
        (r + 1)) := by
  unfold push_frame
  rw [if_neg (not_not_intro hf)]
  dsimp only [utterState]
  rw [if_neg (by decide : ¬ (true = false))]
  rw [bump_silence_false]
  dsimp only
  split
  · rename_i hc
    exfalso
    have h1 := hc.1
    simp only [List.length_append, List.length_singleton] at h1
    omega
  · dsimp only
    split
    · rename_i hc
      exfalso
      omega
    · split
      · rename_i hc
        exfalso
        simp only [List.length_append, List.length_singleton] at hc
        rw [max_utterance_frames_eq] at hc
        rw [min_utterance_frames_eq] at hlen
        omega
      · rfl

/-- The silence frame that reaches the hangover threshold while the utterance
is still shorter than the minimum length discards the utterance silently:
no task, back to SILENCE with an empty buffer. -/
theorem push_hangover_discard (sid : Nat) (d uf : List Bytes) (r : Nat)
    (f : Bytes) (hf : f.length = FRAME_BYTES)
    (hlen : uf.length + 1 < min_utterance_frames)
    (hr : silence_hangover_frames ≤ r + 1) :
    push_frame (utterState sid d uf r) f false = Except.ok
      ([], { pre_roll := dequeAppend pre_roll_frames d f, speech_frames := [],
             in_speech := false, silence_run := 0, last_partial_at := 0,
             segment_id := sid }) := by
  unfold push_frame
  rw [if_neg (not_not_intro hf)]
  dsimp only [utterState]
  rw [if_neg (by decide : ¬ (true = false))]
  rw [bump_silence_false]
  dsimp only
  split
  · rename_i hc
    exfalso
    have h1 := hc.1
    simp only [List.length_append, List.length_singleton] at h1
    omega
  · dsimp only
    rw [finalize_lt _ false
      (by simp only [List.length_append, List.length_singleton]; omega)]
    rfl

/-- `run` distributes over list append. -/
theorem run_append (b a : List (Bytes × Bool)) :
    ∀ s : VADSegmenter,
      (run s (a ++ b)).1 = (run s a).1 ++ (run (run s a).2 b).1 ∧
      (run s (a ++ b)).2 = (run (run s a).2 b).2 := by
  induction a with
  | nil => intro s; exact ⟨rfl, rfl⟩
  | cons x rest ih =>
    intro s
    obtain ⟨f, sp⟩ := x
    rw [List.cons_append]
    simp only [run]
    cases hp : push_frame s f sp with
    | ok r =>
      obtain ⟨ts, s₁⟩ := r
      simp only
      obtain ⟨ih1, ih2⟩ := ih s₁
      rw [ih1, ih2, List.append_assoc]
      exact ⟨rfl, rfl⟩
    | error e => exact ih s

/-- In the SILENCE state, silence frames produce no tasks and change neither
`in_speech` nor the utterance buffer. -/
theorem run_idle (f : Bytes) (hf : f.length = FRAME_BYTES) :
    ∀ (j : Nat) (s : VADSegmenter), s.in_speech = false →
      (run s (List.replicate j (f, false))).1 = [] ∧
      (run s (List.replicate j (f, false))).2.in_speech = false ∧
      (run s (List.replicate j (f, false))).2.speech_frames =
        s.speech_frames := by
  intro j
  induction j with
  | zero => intro s hin; exact ⟨rfl, hin, rfl⟩
  | succ j ih =>
    intro s hin
    rw [List.replicate_succ, run, push_idle_silence s f hf hin]
    simp only [List.nil_append]
    exact ih _ hin

/-- A run of speech frames keeping the utterance under the minimum length
emits nothing and stays in SPEECH with partial cursor 0. -/
theorem run_speech_grow (f : Bytes) (hf : f.length = FRAME_BYTES) (sid : Nat) :
    ∀ (i : Nat) (d uf : List Bytes),
      uf.length + i < min_utterance_frames →
      ∃ d' uf', uf'.length = uf.length + i ∧
        run (utterState sid d uf 0) (List.replicate i (f, true)) =
          ([], utterState sid d' uf' 0) := by
  intro i
  induction i with
  | zero => intro d uf h; exact ⟨d, uf, by omega, rfl⟩
  | succ i ih =>
    intro d uf h
    rw [List.replicate_succ, run, push_grow_speech sid d uf f hf (by omega)]
    simp only
    obtain ⟨d', uf', hlen, hrun⟩ :=
      ih (dequeAppend pre_roll_frames d f) (uf ++ [f])
        (by rw [List.length_append]; simp; omega)
    rw [hrun]
    refine ⟨d', uf', ?_, rfl⟩
    rw [hlen, List.length_append]
    simp
    omega

/-- A run of silence frames short of the hangover threshold, on an utterance
staying under the minimum length, emits nothing and only grows the buffer and
the silence run. -/
theorem run_silence_grow (f : Bytes) (hf : f.length = FRAME_BYTES) (sid : Nat) :
    ∀ (j : Nat) (d uf : List Bytes) (r : Nat),
      uf.length + j < min_utterance_frames →
      r + j < silence_hangover_frames →
      ∃ d' uf', uf'.length = uf.length + j ∧
        run (utterState sid d uf r) (List.replicate j (f, false)) =
          ([], utterState sid d' uf' (r + j)) := by
  intro j
  induction j with
  | zero => intro d uf r h hr; exact ⟨d, uf, by omega, rfl⟩
  | succ j ih =>
    intro d uf r h hr
    rw [List.replicate_succ, run,
      push_grow_silence sid d uf r f hf (by omega) (by omega)]
    simp only
    obtain ⟨d', uf', hlen, hrun⟩ :=
      ih (dequeAppend pre_roll_frames d f) (uf ++ [f]) (r + 1)
        (by rw [List.length_append]; simp; omega) (by omega)
    rw [hrun]
    refine ⟨d', uf', ?_, ?_⟩
    · rw [hlen, List.length_append]
      simp
      omega
    · have hrr : r + 1 + j = r + (j + 1) := by omega
      rw [hrr]
      rfl

/-- Claim C2 (amended): starting from a segmenter in SILENCE with an empty
pre-roll (fresh construction or just after `reset`), a run of `k`
speech-classified frames with `k + silence_hangover_frames <
min_utterance_frames`, followed by at least `silence_hangover_frames`
silence-classified frames, emits no SegmentTask at all, and leaves the
segmenter in SILENCE with an empty utterance buffer, ready to open a new
utterance on the next speech frame.  (The bound accounts for the hangover
silence, which the code appends to the utterance buffer before comparing its
length against the minimum; longer speech runs, or a non-empty pre-roll, can
reach the minimum and emit tasks even when the speech run itself is shorter
than `min_utterance_frames` — see the counterexample.) -/
theorem spec2_C2_short_speech_silent_discard (f : Bytes) (k m : Nat)
    (s0 : VADSegmenter) (hf : f.length = FRAME_BYTES)
    (hpre : s0.pre_roll = []) (hin : s0.in_speech = false) (hk : 1 ≤ k)
    (hshort : k + silence_hangover_frames < min_utterance_frames)
    (hm : silence_hangover_frames ≤ m) :
    (run s0 (speechThenSilence f k m)).1 = [] ∧
    (run s0 (speechThenSilence f k m)).2.in_speech = false ∧
    (run s0 (speechThenSilence f k m)).2.speech_frames = [] := by
  have hshort' : k + 30 < 40 := by
    rw [silence_hangover_frames_eq, min_utterance_frames_eq] at hshort
    exact hshort
  have hm' : 30 ≤ m := by rw [silence_hangover_frames_eq] at hm; exact hm
  obtain ⟨k', rfl⟩ : ∃ k', k = k' + 1 := ⟨k - 1, by omega⟩
  obtain ⟨m', rfl⟩ : ∃ m', m = 30 + m' := ⟨m - 30, by omega⟩
  have hL : speechThenSilence f (k' + 1) (30 + m') =
      (f, true) :: (List.replicate k' (f, true) ++
        List.replicate (30 + m') (f, false)) := by
    rw [speechThenSilence, List.replicate_succ, List.cons_append]
  have hb : List.replicate (30 + m') ((f : Bytes), false) =
      List.replicate 29 (f, false) ++
        ((f, false) :: List.replicate m' (f, false)) := by
    have h30 : 30 + m' = 29 + (m' + 1) := by omega
    rw [← List.replicate_succ, ← List.replicate_add, ← h30]
  rw [hL, run, push_idle_speech s0 f hf hin, hpre, dequeAppend_nil]
  dsimp only
  have hstart : start_utterance { s0 with pre_roll := [f] } =
      utterState s0.segment_id [f] [f] 0 := rfl
  rw [hstart]
  obtain ⟨d1, u1, hu1, hrun1⟩ := run_speech_grow f hf s0.segment_id k' [f] [f]
    (by simp only [List.length_singleton]; rw [min_utterance_frames_eq]; omega)
  simp only [List.length_singleton] at hu1
  obtain ⟨ha1, ha2⟩ := run_append (List.replicate (30 + m') (f, false))
    (List.replicate k' (f, true)) (utterState s0.segment_id [f] [f] 0)
  rw [hrun1] at ha1 ha2
  dsimp only at ha1 ha2
  rw [List.nil_append] at ha1
  rw [ha1, ha2, hb]
  obtain ⟨d2, u2, hu2, hrun2⟩ := run_silence_grow f hf s0.segment_id 29 d1 u1 0
    (by rw [hu1, min_utterance_frames_eq]; omega) (by decide)
  obtain ⟨hb1, hb2⟩ := run_append ((f, false) :: List.replicate m' (f, false))
    (List.replicate 29 (f, false)) (utterState s0.segment_id d1 u1 0)
  rw [hrun2] at hb1 hb2
  dsimp only at hb1 hb2
  rw [List.nil_append] at hb1
  rw [hb1, hb2]
  rw [run, push_hangover_discard s0.segment_id d2 u2 (0 + 29) f hf
    (by rw [hu2, hu1, min_utterance_frames_eq]; omega) (by decide)]
  dsimp only
  obtain ⟨hi1, hi2, hi3⟩ := run_idle f hf m'
    { pre_roll := dequeAppend pre_roll_frames d2 f, speech_frames := [],
      in_speech := false, silence_run := 0, last_partial_at := 0,
      segment_id := s0.segment_id } rfl
  rw [List.nil_append, List.nil_append, hi1, hi2, hi3]
  exact ⟨rfl, rfl, rfl⟩

/-- Witness for the amended C2 at a concrete input: nine speech frames (180ms,
fewer than the 800ms minimum) followed by exactly the hangover silence emit no
task and leave a fresh segmenter in SILENCE with an empty buffer. -/
theorem spec2_C2_witness :
    (run initSegmenter (speechThenSilence zeroFrame 9 30)).1 = [] ∧
    (run initSegmenter (speechThenSilence zeroFrame 9 30)).2.in_speech = false ∧
    (run initSegmenter (speechThenSilence zeroFrame 9 30)).2.speech_frames = [] :=
  spec2_C2_short_speech_silent_discard zeroFrame 9 30 initSegmenter
    (by decide) rfl rfl (by decide) (by decide) (by decide)

end WM
